import Mathlib

/-!
Shallow embedding of `src/agents/audio_agent.py` (class `AudioAgent`).

External libraries (librosa, pydub, whisper, the torch model forward passes and
the transformers emotion pipeline) are modelled as oracle parameters bundled in
environment structures; the control flow of `AudioAgent` itself is translated
statement by statement.  Audio samples and all numeric values are modelled as
exact rationals; a raised Python exception is an `Except.error` carrying the
exception message (`str(e)`).
-/

set_option linter.unusedVariables false

/-- Association-list lookup with string keys: Python `dict[key]` / `dict.get(key)`
(first matching binding wins; Python dicts have unique keys). -/
def mget {α : Type _} : List (String × α) → String → Option α
  | [], _ => none
  | (k, v) :: rest, key => if key = k then some v else mget rest key

/-- Keys of an association list, in insertion order (Python `dict.keys()`). -/
def rkeys {α : Type _} (l : List (String × α)) : List String :=
  l.map Prod.fst

/-- Whether an `Except` value is a success, i.e. the modelled Python call
returned without raising. -/
def exOk {ε α : Type _} : Except ε α → Bool
  | .ok _ => true
  | .error _ => false

/-- A configuration value (the Python config dict holds booleans and numbers
where `AudioAgent` reads it). -/
inductive ConfigVal where
  | bool (b : Bool)
  | num (q : ℚ)
deriving DecidableEq

/-- The configuration dictionary passed to `AudioAgent.__init__`. -/
abbrev Config := List (String × ConfigVal)

/-- `self.config.get(key, default)` used in boolean position (Python truthiness:
a number is truthy iff nonzero). -/
def Config.getBool (c : Config) (key : String) (d : Bool) : Bool :=
  match mget c key with
  | some (.bool b) => b
  | some (.num q) => decide (q ≠ 0)
  | none => d

/-- `self.config.get(key, default)` used in numeric position (Python `True`/`False`
coerce to 1/0). -/
def Config.getNum (c : Config) (key : String) (d : ℚ) : ℚ :=
  match mget c key with
  | some (.num q) => q
  | some (.bool b) => if b then 1 else 0
  | none => d

/-! ## ModelRegistry: `AudioAgent._load_models` -/

/-- One iteration of the `for model_name, model_config in model_configs.items()`
loop in `_load_models`, as the list of entries it adds to `self.models`.
`ctor name` models the per-name constructor call (`some m`: construction
returned model `m`; `none`: it raised, and the `except` clause logs the error).

In the source the `voice_analyzer` branch reads
`self.models[model_name]==self._load_voice_ananlyzer(model_config)` and the
`emotion_detector` branch reads `self.models[model_name]== pipeline(...)`:
both are `==` comparisons, not assignments, whose left operand
`self.models[model_name]` is evaluated first and raises `KeyError` (the key is
never present, since no branch ever assigns it), so the per-iteration handler
catches the exception and neither branch ever stores anything; the constructor
on the right-hand side is not even reached. -/
def load_models_entry {μ : Type _} (ctor : String → Option μ) (name : String) :
    List (String × μ) :=
  if name = "cough_classifier" then
    match ctor name with
    | some m => [(name, m)]
    | none => []
  else if name = "breathing_analyzer" then
    match ctor name with
    | some m => [(name, m)]
    | none => []
  else if name = "voice_analyzer" then
    []
  else if name = "emotion_detector" then
    []
  else []

/-- `AudioAgent._load_models`: iterate over the configured model names (in dict
order) and populate `self.models`. -/
def load_models {μ : Type _} (ctor : String → Option μ) : List String → List (String × μ)
  | [] => []
  | name :: rest => load_models_entry ctor name ++ load_models ctor rest

/-! ## AudioCodec: `AudioAgent.preprocess_audio` -/

/-- External collaborators used by `preprocess_audio`:
`fromFile` models `AudioSegment.from_file` + `export` (may raise on a corrupt
container), `load` models `librosa.load(path, sr=self.sample_rate)` (may raise),
`normalize` models `librosa.util.normalize`, and `split` models
`librosa.effects.split(audio, top_db=...)` returning non-silent
`(start, end)` intervals. -/
structure PreprocessEnv where
  fromFile : String → Except String Unit
  load : String → Except String (List ℚ)
  normalize : List ℚ → List ℚ
  split : List ℚ → ℚ → List (ℕ × ℕ)

/-- Python `audio_path.endswith('.wav')`: the last characters of the string
equal the suffix (written over character lists so that it evaluates inside
proofs). -/
def strEndsWith (s p : String) : Bool :=
  decide (s.data.drop (s.data.length - p.data.length) = p.data)

/-- `audio_path.rsplit('.', 1)[0] + '.wav'`. -/
def wavTemp (path : String) : String :=
  let parts := path.splitOn "."
  if parts.length ≤ 1 then path ++ ".wav"
  else String.intercalate "." parts.dropLast ++ ".wav"

/-- `AudioAgent.preprocess_audio`.  The `try`/`except` in the source logs and
re-raises, so any internal exception propagates unchanged (`Except.error`).
`np.concatenate` on an empty interval list raises (`librosa.effects.split` can
return no intervals on all-silent audio). -/
def preprocess_audio (env : PreprocessEnv) (cfg : Config) (audioPath : String) :
    Except String (List ℚ) :=
  match (if strEndsWith audioPath ".wav" then Except.ok audioPath
         else (env.fromFile audioPath).map (fun _ => wavTemp audioPath)) with
  | .error e => .error e
  | .ok path =>
    match env.load path with
    | .error e => .error e
    | .ok rawAudio =>
      let audio := if cfg.getBool "normalize" true then env.normalize rawAudio else rawAudio
      if cfg.getBool "remove_silence" false then
        let intervals := env.split audio (cfg.getNum "silence_thresold" 30)
        if intervals.isEmpty then .error "need at least one array to concatenate"
        else .ok ((intervals.map (fun p => (audio.drop p.1).take (p.2 - p.1))).flatten)
      else .ok audio

/-! ## FeatureExtractor: `AudioAgent.extract_features` -/

/-- A feature value: scalar or vector. -/
inductive FVal where
  | scalar (q : ℚ)
  | vec (v : List ℚ)
deriving DecidableEq

/-- The features dict built by `extract_features`. -/
abbrev FeatureSet := List (String × FVal)

/-- External librosa feature computations used by `extract_features`, each of
which may raise on degenerate input:
`mfcc audio n` models `librosa.feature.mfcc(y=audio, sr=..., n_mfcc=n).mean(axis=1)`,
`spectralCentroid` models `librosa.feature.spectral_centroid(...).mean()`,
`chromaStft` models `librosa.feature.chroma_stft(...).mean()`, and
`tempo` models `librosa.beat.tempo(onset_envelope=librosa.onset.onset_strength(...))[0]`. -/
structure FeatureEnv where
  mfcc : List ℚ → ℚ → Except String (List ℚ)
  spectralCentroid : List ℚ → Except String ℚ
  chromaStft : List ℚ → Except String ℚ
  tempo : List ℚ → Except String ℚ

/-- One `if self.config.get(toggle, True): features[key] = <computation>` block
of `extract_features`: if a previous block raised, the rest of the function is
never reached; otherwise, when the toggle is enabled, a raising computation
propagates (there is no `try`/`except` inside `extract_features`), and a
successful one appends its key. -/
def featStep (acc : Except String FeatureSet) (enabled : Bool) (key : String)
    (comp : Except String FVal) : Except String FeatureSet :=
  match acc with
  | .error e => .error e
  | .ok fs =>
    if enabled then
      match comp with
      | .ok v => .ok (fs ++ [(key, v)])
      | .error e => .error e
    else .ok fs

/-- `AudioAgent.extract_features`.  Note the source reads the config key
`"external_spectral_centroid"` (not `"extract_spectral_centroid"`) for the
spectral-centroid toggle, and stores the `chroma_stft` mean under the dict key
`"bandwidth"`. -/
def extract_features (env : FeatureEnv) (cfg : Config) (audio : List ℚ) :
    Except String FeatureSet :=
  featStep (featStep (featStep (featStep (.ok [])
    (cfg.getBool "extract_mfcc" true) "mfcc"
      ((env.mfcc audio (cfg.getNum "n_mfcc" 13)).map FVal.vec))
    (cfg.getBool "external_spectral_centroid" true) "spectral_centroid"
      ((env.spectralCentroid audio).map FVal.scalar))
    (cfg.getBool "extract_chroma" true) "bandwidth"
      ((env.chromaStft audio).map FVal.scalar))
    (cfg.getBool "extract_tempo" true) "tempo"
      ((env.tempo audio).map FVal.scalar)

/-! ## InferenceDispatcher and AnalysisOrchestrator: `AudioAgent.analyze` -/

/-- `torch.nn.functional.softmax(output, dim=1)[0]` on the single-row output:
each entry becomes `exp x / sum (exp xs)`.  The exponential is the external
numeric function `e` (mathematically `exp`, in particular strictly positive). -/
def softmax (e : ℚ → ℚ) (xs : List ℚ) : List ℚ :=
  xs.map (fun x => e x / (xs.map e).sum)

/-- Scanning helper for `torch.argmax`: remaining elements, best index so far,
best value so far, index of the next element. -/
def argmaxAux : ℕ → ℚ → ℕ → List ℚ → ℕ
  | bi, _, _, [] => bi
  | bi, bv, i, x :: xs => if bv < x then argmaxAux i x (i + 1) xs else argmaxAux bi bv (i + 1) xs

/-- `torch.argmax(probs).item()`: index of the first occurrence of the maximum
(0 on the empty list, where torch would raise; the caller guards that case). -/
def argmaxIdx : List ℚ → ℕ
  | [] => 0
  | x :: xs => argmaxAux 0 x 1 xs

/-- The fixed label list of the cough classifier:
`classes = ["normal", "covid", "pneumonia", "bronchitis"]`. -/
def coughClasses : List String := ["normal", "covid", "pneumonia", "bronchitis"]

/-- The fixed label list of the breathing analyzer:
`classes = ["normal", "wheezy", "crackle", "stridor", "rhonchi"]`. -/
def breathingClasses : List String := ["normal", "wheezy", "crackle", "stridor", "rhonchi"]

/-- The normalized classifier record
`{prediction: ..., confidence: ..., probabilities: ...}`. -/
structure ClassifierRecord where
  prediction : String
  confidence : ℚ
  probabilities : List (String × ℚ)
deriving DecidableEq

/-- An entry of the results dict built by `analyze`. -/
inductive Entry where
  | features (fs : FeatureSet)
  | transcript (t : String)
  | classifier (r : ClassifierRecord)
  | voice (tremor hoarseness clarity : ℚ)
  | emotion (tag : ℕ)
  | err (msg : String)
deriving DecidableEq

/-- The results dict returned by `analyze`. -/
abbrev Report := List (String × Entry)

/-- The classifier arm of the dispatch loop:
`probs = softmax(output, dim=1)[0]`, `class_idx = torch.argmax(probs).item()`,
then the record `{prediction: classes[class_idx], confidence: probs[class_idx].item(),
probabilities: dict(zip(classes, probs))}`.  `torch.argmax` raises on an empty
tensor, and `classes[class_idx]` raises `IndexError` when `class_idx` is out of
range (both impossible for the real fixed-architecture models, whose outputs
have exactly `len(classes)` entries). -/
def classifierEntry (e : ℚ → ℚ) (classes : List String) (output : List ℚ) :
    Except String Entry :=
  let probs := softmax e output
  let class_idx := argmaxIdx probs
  if output.isEmpty then .error "argmax on an empty tensor"
  else if class_idx < classes.length then
    .ok (.classifier
      { prediction := classes.getD class_idx ""
        confidence := probs.getD class_idx 0
        probabilities := classes.zip probs })
  else .error "list index out of range"

/-- External collaborators of `analyze`:
`whisper` models `self.whisper_model.transcribe(audio)["text"]`,
`exp` is the exponential used by `torch.nn.functional.softmax`,
`forward name input` models the forward pass `model(model_input.to(self.device))`
of the registry model named `name` (returning the single output row, i.e.
`output[0]`), and `emotionCall` models invoking the emotion pipeline on the
audio path (its result record is opaque to the agent and tagged by a number). -/
structure AnalyzeEnv where
  pre : PreprocessEnv
  feat : FeatureEnv
  whisper : List ℚ → Except String String
  exp : ℚ → ℚ
  forward : String → List ℚ → Except String (List ℚ)
  emotionCall : String → Except String ℕ

/-- `AudioAgent.transcribe_audio`: any internal failure is caught and yields
the empty string (the dtype conversion to float32 is the identity here). -/
def transcribe_audio (env : AnalyzeEnv) (audio : List ℚ) : String :=
  match env.whisper audio with
  | .ok t => t
  | .error _ => ""

/-- `len(model_input)` where
`model_input = torch.tensor(audio).float().unsqueeze(0).unsqueeze(0)`:
the tensor has shape `(1, 1, N)`, and Python `len` of a tensor is the size of
its first dimension, i.e. `1`, whatever the audio length. -/
def tensorLen (audio : List ℚ) : ℕ := 1

/-- The tensor handed to the model forward pass in the dispatch loop:
`if len(model_input) > 10000: model_input = model_input[:, :, :10000]`. -/
def modelInput (audio : List ℚ) : List ℚ :=
  if tensorLen audio > 10000 then audio.take 10000 else audio

/-- One iteration of the `for model_name, model in self.models.items()` loop in
`analyze`: `.ok (some entry)` stores `results[model_name] = entry`,
`.ok none` stores nothing (a registry name matching no branch runs the forward
pass and discards the output), `.error e` models an exception raised inside the
iteration, which propagates to the top-level `except` of `analyze`.
The `voice_analyzer` arm reads `output[0]`, `output[1]`, `output[2]` of the
output row, raising `IndexError` when the row is shorter than 3. -/
def dispatchStep (env : AnalyzeEnv) (path : String) (audio : List ℚ) (name : String) :
    Except String (Option Entry) :=
  if name = "emotion_detector" then
    (env.emotionCall path).map (fun r => some (Entry.emotion r))
  else
    match env.forward name (modelInput audio) with
    | .error e => .error e
    | .ok output =>
      if name = "cough_classifier" then
        (classifierEntry env.exp coughClasses output).map some
      else if name = "breathing_analyzer" then
        (classifierEntry env.exp breathingClasses output).map some
      else if name = "voice_analyzer" then
        if output.length < 3 then .error "index out of range"
        else .ok (some (Entry.voice (output.getD 0 0) (output.getD 1 0) (output.getD 2 0)))
      else .ok none

/-- The dispatch loop of `analyze` over the registry names in insertion order,
carrying the results dict built so far.  An exception in one iteration is the
exception of the surrounding `try`, whose handler appends
`results["error"] = str(e)` to the dict as built at that point and returns it. -/
def dispatchLoop (env : AnalyzeEnv) (path : String) (audio : List ℚ) :
    List String → Report → Report
  | [], results => results
  | name :: rest, results =>
    match dispatchStep env path audio name with
    | .error e => results ++ [("error", Entry.err e)]
    | .ok none => dispatchLoop env path audio rest results
    | .ok (some entry) => dispatchLoop env path audio rest (results ++ [(name, entry)])

/-- `AudioAgent.analyze`: a total function into `Report` — every internal
exception is caught by the top-level `except`, which stores
`results["error"] = str(e)` and returns the dict; nothing is ever raised to the
caller. -/
def analyze (env : AnalyzeEnv) (cfg : Config) (models : List String) (path : String) :
    Report :=
  match preprocess_audio env.pre cfg path with
  | .error e => [("error", Entry.err e)]
  | .ok audio =>
    match extract_features env.feat cfg audio with
    | .error e => [("error", Entry.err e)]
    | .ok features =>
      let results : Report := [("features", Entry.features features)]
      let results :=
        if cfg.getBool "transcribe" true then
          results ++ [("transcript", Entry.transcript (transcribe_audio env audio))]
        else results
      dispatchLoop env path audio models results

/-! ## Observers used to state the theorems -/

/-- The message of the exception raised by the first failing dispatch iteration,
if any. -/
def firstDispatchError (env : AnalyzeEnv) (path : String) (audio : List ℚ) :
    List String → Option String
  | [] => none
  | name :: rest =>
    match dispatchStep env path audio name with
    | .error e => some e
    | .ok _ => firstDispatchError env path audio rest

/-- The message of the first internal exception raised during `analyze`, if any
(preprocessing, then feature extraction, then the dispatch iterations;
transcription never raises). -/
def internalFailure (env : AnalyzeEnv) (cfg : Config) (models : List String)
    (path : String) : Option String :=
  match preprocess_audio env.pre cfg path with
  | .error e => some e
  | .ok audio =>
    match extract_features env.feat cfg audio with
    | .error e => some e
    | .ok _ => firstDispatchError env path audio models

/-- The report entries contributed by a list of registry names all of whose
dispatch iterations succeed. -/
def okEntries (env : AnalyzeEnv) (path : String) (audio : List ℚ) :
    List String → Report
  | [] => []
  | name :: rest =>
    match dispatchStep env path audio name with
    | .ok (some entry) => (name, entry) :: okEntries env path audio rest
    | _ => okEntries env path audio rest

/-- The keys of the feature dict returned by `extract_features` (empty when it
raised). -/
def featKeys (r : Except String FeatureSet) : List String :=
  match r with
  | .ok fs => rkeys fs
  | .error _ => []

/-! ## Concrete environments used by witnesses and counterexamples -/

/-- A feature environment in which every librosa computation succeeds. -/
def featEnvOk : FeatureEnv where
  mfcc := fun _ _ => .ok [1]
  spectralCentroid := fun _ => .ok 2
  chromaStft := fun _ => .ok 3
  tempo := fun _ => .ok 4

/-- A feature environment in which tempo estimation raises (e.g. on silence)
while every other feature computation succeeds. -/
def featEnvTempoFail : FeatureEnv where
  mfcc := fun _ _ => .ok [1]
  spectralCentroid := fun _ => .ok 2
  chromaStft := fun _ => .ok 3
  tempo := fun _ => .error "tempo estimation failed"

/-- A preprocessing environment whose decode step always fails (an empty or
corrupt file). -/
def preEnvFail : PreprocessEnv where
  fromFile := fun _ => .ok ()
  load := fun _ => .error "could not read file"
  normalize := fun a => a
  split := fun _ _ => []

/-- A preprocessing environment that decodes `[5, 6, 7]` and whose
silence-splitting step is sensitive to the decibel threshold it receives. -/
def preEnvSplit : PreprocessEnv where
  fromFile := fun _ => .ok ()
  load := fun _ => .ok [5, 6, 7]
  normalize := fun a => a
  split := fun _ db => if db < 50 then [(0, 1)] else [(0, 2)]

/-- A preprocessing environment that decodes `[1, 2]` successfully. -/
def preEnvOk : PreprocessEnv where
  fromFile := fun _ => .ok ()
  load := fun _ => .ok [1, 2]
  normalize := fun a => a
  split := fun _ _ => []

/-- A full environment in which decoding fails. -/
def envDecodeFail : AnalyzeEnv where
  pre := preEnvFail
  feat := featEnvOk
  whisper := fun _ => .ok "hi"
  exp := fun _ => 1
  forward := fun _ _ => .ok [1, 0, 0, 0]
  emotionCall := fun _ => .ok 0

/-- A full environment in which everything succeeds except the
`breathing_analyzer` forward pass, which raises a shape-mismatch error. -/
def envBreathFail : AnalyzeEnv where
  pre := preEnvOk
  feat := featEnvOk
  whisper := fun _ => .ok "hi"
  exp := fun _ => 1
  forward := fun name _ =>
    if name = "breathing_analyzer" then .error "mat1 and mat2 shapes cannot be multiplied"
    else .ok [1, 0, 0, 0]
  emotionCall := fun _ => .ok 0

/-- A model-constructor oracle for which every construction succeeds. -/
def ctorAllOk : String → Option ℕ := fun _ => some 0

/-- A model-constructor oracle for which the cough-classifier construction
raises and every other construction succeeds. -/
def ctorFailCough : String → Option ℕ :=
  fun name => if name = "cough_classifier" then none else some 0

/-- A full environment whose forward oracle reports whether the tensor it was
handed still had all 10001 samples. -/
def envLenProbe : AnalyzeEnv where
  pre := preEnvOk
  feat := featEnvOk
  whisper := fun _ => .ok "hi"
  exp := fun _ => 1
  forward := fun _ input =>
    .error (if input.length = 10001 then "forward received all 10001 samples"
            else "forward received a truncated tensor")
  emotionCall := fun _ => .ok 0

/-! ## Helper lemmas -/

theorem mget_append_none {α : Type _} {l₁ l₂ : List (String × α)} {k : String}
    (h : mget l₁ k = none) : mget (l₁ ++ l₂) k = mget l₂ k := by
  induction l₁ with
  | nil => rfl
  | cons p t ih =>
    obtain ⟨a, b⟩ := p
    by_cases hk : k = a
    · simp [mget, hk] at h
    · simp [mget, hk] at h ⊢
      exact ih h

theorem mget_append_some {α : Type _} {l₁ l₂ : List (String × α)} {k : String} {v : α}
    (h : mget l₁ k = some v) : mget (l₁ ++ l₂) k = some v := by
  induction l₁ with
  | nil => simp [mget] at h
  | cons p t ih =>
    obtain ⟨a, b⟩ := p
    by_cases hk : k = a
    · simp [mget, hk] at h ⊢
      exact h
    · simp [mget, hk] at h ⊢
      exact ih h

theorem exOk_map {α β : Type _} (f : α → β) (x : Except String α) :
    exOk (x.map f) = exOk x := by
  cases x <;> rfl

theorem exOk_ok {α : Type _} (v : α) : exOk (Except.ok v : Except String α) = true :=
  rfl

theorem bool_or_imp (b : Bool) (p : Prop) : (b = false ∨ p) ↔ (b = true → p) := by
  cases b <;> simp

theorem exOk_featStep (acc : Except String FeatureSet) (enabled : Bool) (key : String)
    (comp : Except String FVal) :
    exOk (featStep acc enabled key comp) = (exOk acc && (!enabled || exOk comp)) := by
  cases acc with
  | error e => rfl
  | ok fs =>
    cases enabled with
    | false => rfl
    | true => cases comp <;> rfl

/-! ## Claim theorems -/

/-- Claim C1 (code_bug): the claim says a configured model name whose
construction succeeds ends up as a key of `self.models`.  At the failing input
(a configuration naming all four models, with every constructor succeeding),
the registry after `_load_models` contains `cough_classifier` and
`breathing_analyzer` but neither `voice_analyzer` nor `emotion_detector`: for
those two names the source executes `self.models[model_name] == ...`
(a comparison, not an assignment) whose left operand raises `KeyError`, so the
names are never inserted even though their constructors would succeed. -/
theorem c1_successful_construction_not_registered :
    mget (load_models ctorAllOk
      ["cough_classifier", "breathing_analyzer", "voice_analyzer", "emotion_detector"])
      "emotion_detector" = none ∧
    mget (load_models ctorAllOk
      ["cough_classifier", "breathing_analyzer", "voice_analyzer", "emotion_detector"])
      "voice_analyzer" = none ∧
    mget (load_models ctorAllOk
      ["cough_classifier", "breathing_analyzer", "voice_analyzer", "emotion_detector"])
      "cough_classifier" = some 0 ∧
    mget (load_models ctorAllOk
      ["cough_classifier", "breathing_analyzer", "voice_analyzer", "emotion_detector"])
      "breathing_analyzer" = some 0 := by
  refine ⟨rfl, rfl, rfl, rfl⟩

/-- Claim C3 (code_bug): the claim says the tensor passed to a fixed-window
model during dispatch holds exactly the first 10000 samples when the audio is
longer.  In the source the truncation guard reads `len(model_input)` after two
`unsqueeze(0)` calls, i.e. the size of the batch dimension, which is always 1,
so the guard never fires and the model receives the whole audio: the dispatch
loop run over a 10001-sample audio hands the forward pass all 10001 samples. -/
theorem c3_truncation_never_happens :
    (∀ audio : List ℚ, modelInput audio = audio) ∧
    dispatchLoop envLenProbe "a.wav" (List.replicate 10001 0) ["cough_classifier"] [] =
      [("error", Entry.err "forward received all 10001 samples")] := by
  constructor
  · intro audio
    rfl
  · have hmi : modelInput (List.replicate 10001 (0 : ℚ)) = List.replicate 10001 0 := rfl
    have hfwd : envLenProbe.forward "cough_classifier" (modelInput (List.replicate 10001 0))
        = .error "forward received all 10001 samples" := by
      show Except.error (if (modelInput (List.replicate 10001 (0 : ℚ))).length = 10001
          then "forward received all 10001 samples"
          else "forward received a truncated tensor") = _
      rw [hmi, List.length_replicate]
      rfl
    have hstep : dispatchStep envLenProbe "a.wav" (List.replicate 10001 0) "cough_classifier"
        = .error "forward received all 10001 samples" := by
      rw [dispatchStep, if_neg (by decide : ¬ ("cough_classifier" = "emotion_detector")), hfwd]
    rw [dispatchLoop, hstep]
    rfl

/-- Claim C4 counterexample: at a concrete input on which the tempo computation
raises (as it can on silence) while every other enabled feature succeeds,
`extract_features` does not return a feature dictionary with `tempo` absent —
it raises (there is no per-feature `try`/`except` in the source), refuting the
claim that `extract_features` never raises. -/
theorem c4_counterexample_tempo_failure_raises :
    extract_features featEnvTempoFail [] [0] = .error "tempo estimation failed" := by
  rfl

/-- Claim C4 (corrected, amended): `extract_features` returns successfully if
and only if every enabled feature computation succeeds; the failure of any
enabled feature computation propagates as an exception out of
`extract_features` (to be caught only by the top-level handler of `analyze`)
instead of merely leaving that feature absent. -/
theorem c4_amended_extract_ok_iff_all_enabled_ok (env : FeatureEnv) (cfg : Config)
    (audio : List ℚ) :
    exOk (extract_features env cfg audio) = true ↔
      ((cfg.getBool "extract_mfcc" true = true →
          exOk (env.mfcc audio (cfg.getNum "n_mfcc" 13)) = true) ∧
       (cfg.getBool "external_spectral_centroid" true = true →
          exOk (env.spectralCentroid audio) = true) ∧
       (cfg.getBool "extract_chroma" true = true →
          exOk (env.chromaStft audio) = true) ∧
       (cfg.getBool "extract_tempo" true = true →
          exOk (env.tempo audio) = true)) := by
  simp only [extract_features, exOk_featStep, exOk_map, exOk_ok, Bool.true_and,
    Bool.and_eq_true, Bool.or_eq_true, Bool.not_eq_true', bool_or_imp, and_assoc]

/-- Witness for the amended C4 theorem at a concrete environment in which every
feature computation succeeds and the default configuration. -/
theorem c4_amended_witness :
    exOk (extract_features featEnvOk [] [0]) = true ↔
      ((Config.getBool [] "extract_mfcc" true = true →
          exOk (featEnvOk.mfcc [0] (Config.getNum [] "n_mfcc" 13)) = true) ∧
       (Config.getBool [] "external_spectral_centroid" true = true →
          exOk (featEnvOk.spectralCentroid [0]) = true) ∧
       (Config.getBool [] "extract_chroma" true = true →
          exOk (featEnvOk.chromaStft [0]) = true) ∧
       (Config.getBool [] "extract_tempo" true = true →
          exOk (featEnvOk.tempo [0]) = true)) :=
  c4_amended_extract_ok_iff_all_enabled_ok featEnvOk [] [0]

/-- Claim C5 (code_bug): the claim says the feature keyed `chroma_energy` is
present iff toggle `extract_chroma` is enabled, and `spectral_centroid` iff
toggle `extract_spectral_centroid` is enabled.  Evaluating the code with every
feature computation succeeding: under the default configuration the chroma
value is stored under the key `"bandwidth"` (no `"chroma_energy"` key exists);
setting `extract_spectral_centroid` to false leaves `spectral_centroid`
present (the source reads the config key `"external_spectral_centroid"`
instead), while setting `external_spectral_centroid` to false removes it. -/
theorem c5_feature_keys_and_toggles_mismatch :
    featKeys (extract_features featEnvOk [] [0]) =
      ["mfcc", "spectral_centroid", "bandwidth", "tempo"] ∧
    featKeys (extract_features featEnvOk
      [("extract_spectral_centroid", ConfigVal.bool false)] [0]) =
      ["mfcc", "spectral_centroid", "bandwidth", "tempo"] ∧
    featKeys (extract_features featEnvOk
      [("external_spectral_centroid", ConfigVal.bool false)] [0]) =
      ["mfcc", "bandwidth", "tempo"] := by
  refine ⟨rfl, rfl, rfl⟩

/-- Claim C6 (confirmed): when the preprocessing/decode stage fails with a
non-empty message, `analyze` returns a report whose only key is `error`,
holding that message; no `features`, `transcript` or per-model key exists. -/
theorem c6_decode_failure_yields_error_only_report (env : AnalyzeEnv) (cfg : Config)
    (models : List String) (path : String) (e : String)
    (hpre : preprocess_audio env.pre cfg path = .error e) (hne : e ≠ "") :
    analyze env cfg models path = [("error", Entry.err e)] ∧ e ≠ "" := by
  refine ⟨?_, hne⟩
  simp [analyze, hpre]

/-- Witness for C6: a concrete environment whose decode fails. -/
theorem c6_witness :
    analyze envDecodeFail [] ["cough_classifier"] "a.wav" =
      [("error", Entry.err "could not read file")] ∧
    "could not read file" ≠ "" :=
  c6_decode_failure_yields_error_only_report envDecodeFail [] ["cough_classifier"]
    "a.wav" "could not read file" rfl (by decide)

theorem mget_entry_ne {μ : Type _} (ctor : String → Option μ) (name k : String)
    (hk : k ≠ name) : mget (load_models_entry ctor name) k = none := by
  unfold load_models_entry
  split_ifs <;> first
    | rfl
    | (cases h : ctor name <;> simp [mget, hk])

theorem load_models_entry_none {μ : Type _} (ctor : String → Option μ) (name : String)
    (h : ctor name = none) : load_models_entry ctor name = [] := by
  unfold load_models_entry
  split_ifs <;> simp [h]

theorem load_models_entry_congr {μ : Type _} (ctor₁ ctor₂ : String → Option μ)
    (name : String) (h : ctor₁ name = ctor₂ name) :
    load_models_entry ctor₁ name = load_models_entry ctor₂ name := by
  unfold load_models_entry
  rw [h]

/-- Claim C7 (confirmed): a construction failure for one configured name is
caught and only makes that name absent from the registry; for every other
name, the registry content is exactly what it would be under any constructor
oracle agreeing outside the failed name — loading of the remaining names
proceeds independently. -/
theorem c7_registry_failure_isolated {μ : Type} (ctor₁ ctor₂ : String → Option μ)
    (names : List String) (n : String)
    (hfail : ctor₁ n = none) (hagree : ∀ m, m ≠ n → ctor₁ m = ctor₂ m) :
    mget (load_models ctor₁ names) n = none ∧
    ∀ k, k ≠ n → mget (load_models ctor₁ names) k = mget (load_models ctor₂ names) k := by
  induction names with
  | nil => exact ⟨rfl, fun k hk => rfl⟩
  | cons name rest ih =>
    obtain ⟨ih1, ih2⟩ := ih
    constructor
    · by_cases hname : name = n
      · subst hname
        rw [load_models, load_models_entry_none ctor₁ name hfail, List.nil_append]
        exact ih1
      · rw [load_models, mget_append_none (mget_entry_ne ctor₁ name n (Ne.symm hname))]
        exact ih1
    · intro k hk
      by_cases hname : name = n
      · subst hname
        rw [load_models, load_models, load_models_entry_none ctor₁ name hfail,
          List.nil_append, mget_append_none (mget_entry_ne ctor₂ name k hk)]
        exact ih2 k hk
      · have hcongr := load_models_entry_congr ctor₁ ctor₂ name (hagree name hname)
        rw [load_models, load_models, hcongr]
        cases h : mget (load_models_entry ctor₂ name) k with
        | some v => rw [mget_append_some h, mget_append_some h]
        | none =>
          rw [mget_append_none h, mget_append_none h]
          exact ih2 k hk

/-- Witness for C7: the cough-classifier construction fails, the name is absent,
and the breathing-analyzer entry is the same as under an all-successful oracle. -/
theorem c7_witness :
    mget (load_models ctorFailCough ["cough_classifier", "breathing_analyzer"])
      "cough_classifier" = none ∧
    mget (load_models ctorFailCough ["cough_classifier", "breathing_analyzer"])
      "breathing_analyzer" =
      mget (load_models ctorAllOk ["cough_classifier", "breathing_analyzer"])
        "breathing_analyzer" :=
  ⟨(c7_registry_failure_isolated ctorFailCough ctorAllOk
      ["cough_classifier", "breathing_analyzer"] "cough_classifier" rfl
      (fun m hm => by simp [ctorFailCough, ctorAllOk, hm])).1,
   (c7_registry_failure_isolated ctorFailCough ctorAllOk
      ["cough_classifier", "breathing_analyzer"] "cough_classifier" rfl
      (fun m hm => by simp [ctorFailCough, ctorAllOk, hm])).2
     "breathing_analyzer" (by decide)⟩

theorem getBool_cons_ne (k key : String) (v : ConfigVal) (c : Config) (d : Bool)
    (h : key ≠ k) : Config.getBool ((k, v) :: c) key d = Config.getBool c key d := by
  simp [Config.getBool, mget, h]

theorem getNum_cons_ne (k key : String) (v : ConfigVal) (c : Config) (d : ℚ)
    (h : key ≠ k) : Config.getNum ((k, v) :: c) key d = Config.getNum c key d := by
  simp [Config.getNum, mget, h]

/-- Claim C9 counterexample: two configurations differing only in
`silence_threshold_db` (30 vs 100) yield the same preprocessing output even
though the silence-splitting oracle distinguishes thresholds 30 and 100 —
refuting the claim that the configured `silence_threshold_db` value is used as
the decibel threshold.  The key the code actually reads is `"silence_thresold"`,
whose value does change the output. -/
theorem c9_counterexample_threshold_key_ignored :
    preprocess_audio preEnvSplit
      [("remove_silence", ConfigVal.bool true), ("silence_threshold_db", ConfigVal.num 30)]
      "a.wav" = .ok [5] ∧
    preprocess_audio preEnvSplit
      [("remove_silence", ConfigVal.bool true), ("silence_threshold_db", ConfigVal.num 100)]
      "a.wav" = .ok [5] ∧
    preEnvSplit.split [5, 6, 7] 30 ≠ preEnvSplit.split [5, 6, 7] 100 ∧
    preprocess_audio preEnvSplit
      [("remove_silence", ConfigVal.bool true), ("silence_thresold", ConfigVal.num 100)]
      "a.wav" = .ok [5, 6] := by
  exact ⟨rfl, rfl, by decide, rfl⟩

/-- Claim C9 (corrected, amended): with `remove_silence` enabled, preprocessing
passes the value of config key `"silence_thresold"` (default 30) — not
`"silence_threshold_db"`, which is ignored entirely, so configurations
differing only in that key yield identical output — as the decibel threshold
to non-silent-interval detection, and returns the concatenation of the
detected non-silent intervals in their original order. -/
theorem c9_amended_threshold_key_and_concatenation :
    (∀ (env : PreprocessEnv) (cfg : Config) (path : String) (v : ConfigVal),
        preprocess_audio env (("silence_threshold_db", v) :: cfg) path =
          preprocess_audio env cfg path) ∧
    (∀ (env : PreprocessEnv) (cfg : Config) (path : String) (raw audio : List ℚ)
        (iv : ℕ × ℕ) (ivs : List (ℕ × ℕ)),
        strEndsWith path ".wav" = true →
        env.load path = .ok raw →
        (if cfg.getBool "normalize" true then env.normalize raw else raw) = audio →
        cfg.getBool "remove_silence" false = true →
        env.split audio (cfg.getNum "silence_thresold" 30) = iv :: ivs →
        preprocess_audio env cfg path =
          .ok (((iv :: ivs).map (fun p => (audio.drop p.1).take (p.2 - p.1))).flatten)) := by
  constructor
  · intro env cfg path v
    have h1 : Config.getBool (("silence_threshold_db", v) :: cfg) "normalize" true =
        cfg.getBool "normalize" true := getBool_cons_ne _ _ _ _ _ (by decide)
    have h2 : Config.getBool (("silence_threshold_db", v) :: cfg) "remove_silence" false =
        cfg.getBool "remove_silence" false := getBool_cons_ne _ _ _ _ _ (by decide)
    have h3 : Config.getNum (("silence_threshold_db", v) :: cfg) "silence_thresold" 30 =
        cfg.getNum "silence_thresold" 30 := getNum_cons_ne _ _ _ _ _ (by decide)
    simp only [preprocess_audio, h1, h2, h3]
  · intro env cfg path raw audio iv ivs hwav hload ha hrs hsplit
    subst ha
    simp [preprocess_audio, hwav, hload, hrs, hsplit]

/-- Witness for the amended C9 theorem at a concrete environment. -/
theorem c9_witness :
    preprocess_audio preEnvSplit [("silence_threshold_db", ConfigVal.num 42)] "a.wav" =
      preprocess_audio preEnvSplit [] "a.wav" ∧
    preprocess_audio preEnvSplit [("remove_silence", ConfigVal.bool true)] "a.wav" =
      .ok ((([((0 : ℕ), (1 : ℕ))]).map
        (fun p => (([5, 6, 7] : List ℚ).drop p.1).take (p.2 - p.1))).flatten) :=
  ⟨c9_amended_threshold_key_and_concatenation.1 preEnvSplit [] "a.wav" (ConfigVal.num 42),
   c9_amended_threshold_key_and_concatenation.2 preEnvSplit
     [("remove_silence", ConfigVal.bool true)] "a.wav" [5, 6, 7] [5, 6, 7] (0, 1) []
     rfl rfl rfl rfl rfl⟩

theorem mget_dispatchLoop_error (env : AnalyzeEnv) (path : String) (audio : List ℚ) :
    ∀ (names : List String) (acc : Report) (msg : String),
    mget acc "error" = none →
    (∀ nm ∈ names, nm ≠ "error") →
    firstDispatchError env path audio names = some msg →
    mget (dispatchLoop env path audio names acc) "error" = some (Entry.err msg) := by
  intro names
  induction names with
  | nil =>
    intro acc msg hacc hne h
    exact absurd h (by simp [firstDispatchError])
  | cons name rest ih =>
    intro acc msg hacc hne hfd
    rw [dispatchLoop]
    rw [firstDispatchError] at hfd
    cases hs : dispatchStep env path audio name with
    | error e =>
      rw [hs] at hfd
      obtain rfl : e = msg := Option.some.inj hfd
      show mget (acc ++ [("error", Entry.err e)]) "error" = some (Entry.err e)
      rw [mget_append_none hacc]
      rfl
    | ok oe =>
      rw [hs] at hfd
      cases oe with
      | none =>
        show mget (dispatchLoop env path audio rest acc) "error" = some (Entry.err msg)
        exact ih acc msg hacc (fun nm h => hne nm (List.mem_cons_of_mem _ h)) hfd
      | some entry =>
        show mget (dispatchLoop env path audio rest (acc ++ [(name, entry)])) "error"
          = some (Entry.err msg)
        refine ih (acc ++ [(name, entry)]) msg ?_
          (fun nm h => hne nm (List.mem_cons_of_mem _ h)) hfd
        rw [mget_append_none hacc]
        have hname : name ≠ "error" := hne name (List.mem_cons_self _ _)
        simp [mget, Ne.symm hname]

/-- Claim C2 (confirmed): `analyze` is a total function into `Report` (the
top-level handler converts every internal exception to data, so nothing is
raised to the caller), and whenever any stage raises internally
(preprocessing, feature extraction, or a dispatch iteration), the returned
dictionary contains the key `error` mapped to that failure's message string. -/
theorem c2_analyze_never_raises_and_reports_error (env : AnalyzeEnv) (cfg : Config)
    (models : List String) (path : String) (msg : String)
    (hmodels : ∀ nm ∈ models, nm ≠ "error")
    (hfail : internalFailure env cfg models path = some msg) :
    mget (analyze env cfg models path) "error" = some (Entry.err msg) := by
  cases hpre : preprocess_audio env.pre cfg path with
  | error e =>
    simp only [internalFailure, hpre] at hfail
    obtain rfl : e = msg := Option.some.inj hfail
    simp only [analyze, hpre]
    rfl
  | ok audio =>
    cases hfe : extract_features env.feat cfg audio with
    | error e =>
      simp only [internalFailure, hpre, hfe] at hfail
      obtain rfl : e = msg := Option.some.inj hfail
      simp only [analyze, hpre, hfe]
      rfl
    | ok features =>
      simp only [internalFailure, hpre, hfe] at hfail
      simp only [analyze, hpre, hfe]
      refine mget_dispatchLoop_error env path audio models _ msg ?_ hmodels hfail
      cases htr : cfg.getBool "transcribe" true <;> simp [mget]

/-- Witness for C2: a concrete run in which the breathing-analyzer forward
pass raises a shape-mismatch error. -/
theorem c2_witness :
    mget (analyze envBreathFail [] ["breathing_analyzer"] "a.wav")
      "error" = some (Entry.err "mat1 and mat2 shapes cannot be multiplied") :=
  c2_analyze_never_raises_and_reports_error envBreathFail []
    ["breathing_analyzer"] "a.wav"
    "mat1 and mat2 shapes cannot be multiplied" (by decide) rfl

theorem dispatchLoop_pre_fail (env : AnalyzeEnv) (path : String) (audio : List ℚ) :
    ∀ (pre : List String) (acc : Report) (name : String) (post : List String) (msg : String),
    (∀ nm ∈ pre, exOk (dispatchStep env path audio nm) = true) →
    dispatchStep env path audio name = .error msg →
    dispatchLoop env path audio (pre ++ name :: post) acc =
      acc ++ okEntries env path audio pre ++ [("error", Entry.err msg)] := by
  intro pre
  induction pre with
  | nil =>
    intro acc name post msg hok hstep
    rw [List.nil_append, dispatchLoop, hstep]
    show acc ++ [("error", Entry.err msg)] = acc ++ okEntries env path audio [] ++ [("error", Entry.err msg)]
    rw [okEntries]
    simp
  | cons nm rest ih =>
    intro acc name post msg hok hstep
    have h1 : exOk (dispatchStep env path audio nm) = true := hok nm (List.mem_cons_self _ _)
    rw [List.cons_append, dispatchLoop]
    cases hs : dispatchStep env path audio nm with
    | error e =>
      rw [hs] at h1
      exact absurd h1 (by simp [exOk])
    | ok oe =>
      cases oe with
      | none =>
        show dispatchLoop env path audio (rest ++ name :: post) acc = _
        rw [ih acc name post msg (fun x hx => hok x (List.mem_cons_of_mem _ hx)) hstep]
        have hoe : okEntries env path audio (nm :: rest) = okEntries env path audio rest := by
          rw [okEntries, hs]
        rw [hoe]
      | some entry =>
        show dispatchLoop env path audio (rest ++ name :: post) (acc ++ [(nm, entry)]) = _
        rw [ih (acc ++ [(nm, entry)]) name post msg
          (fun x hx => hok x (List.mem_cons_of_mem _ hx)) hstep]
        have hoe : okEntries env path audio (nm :: rest)
            = (nm, entry) :: okEntries env path audio rest := by
          rw [okEntries, hs]
        rw [hoe]
        simp [List.append_assoc]

theorem okEntries_keys_sub (env : AnalyzeEnv) (path : String) (audio : List ℚ) :
    ∀ (pre : List String) (k : String),
    k ∈ rkeys (okEntries env path audio pre) → k ∈ pre := by
  intro pre
  induction pre with
  | nil =>
    intro k h
    simp [okEntries, rkeys] at h
  | cons nm rest ih =>
    intro k h
    cases hs : dispatchStep env path audio nm with
    | error e =>
      rw [okEntries, hs] at h
      exact List.mem_cons_of_mem _ (ih k h)
    | ok oe =>
      cases oe with
      | none =>
        rw [okEntries, hs] at h
        exact List.mem_cons_of_mem _ (ih k h)
      | some entry =>
        rw [okEntries, hs] at h
        rw [rkeys, List.map_cons] at h
        rcases List.mem_cons.mp h with h | h
        · exact h ▸ List.mem_cons_self _ _
        · exact List.mem_cons_of_mem _ (ih k h)

/-- Claim C10 (confirmed): when a single model's inference raises during the
dispatch loop, `analyze` returns the results dict as built up to that point —
the `features` entry, the `transcript` entry when transcription is enabled,
and one entry per model dispatched earlier that produced a record — followed by
the `error` key holding the failure message; the failing model's key and the
keys of all models iterated after it are absent. -/
theorem c10_partial_results_kept_on_dispatch_failure (env : AnalyzeEnv) (cfg : Config)
    (path : String) (audio : List ℚ) (features : FeatureSet)
    (pre : List String) (name : String) (post : List String) (msg : String)
    (hpre : preprocess_audio env.pre cfg path = .ok audio)
    (hfe : extract_features env.feat cfg audio = .ok features)
    (hok : ∀ nm ∈ pre, exOk (dispatchStep env path audio nm) = true)
    (hstep : dispatchStep env path audio name = .error msg)
    (hnpre : name ∉ pre) (hn1 : name ≠ "features") (hn2 : name ≠ "transcript")
    (hn3 : name ≠ "error") :
    analyze env cfg (pre ++ name :: post) path =
      [("features", Entry.features features)] ++
        (if cfg.getBool "transcribe" true then
          [("transcript", Entry.transcript (transcribe_audio env audio))] else []) ++
        okEntries env path audio pre ++ [("error", Entry.err msg)] ∧
    name ∉ rkeys (analyze env cfg (pre ++ name :: post) path) ∧
    ∀ m ∈ post, m ∉ pre → m ≠ "features" → m ≠ "transcript" → m ≠ "error" →
      m ∉ rkeys (analyze env cfg (pre ++ name :: post) path) := by
  have hmain : analyze env cfg (pre ++ name :: post) path =
      [("features", Entry.features features)] ++
        (if cfg.getBool "transcribe" true then
          [("transcript", Entry.transcript (transcribe_audio env audio))] else []) ++
        okEntries env path audio pre ++ [("error", Entry.err msg)] := by
    simp only [analyze, hpre, hfe]
    rw [dispatchLoop_pre_fail env path audio pre _ name post msg hok hstep]
    cases htr : cfg.getBool "transcribe" true <;> simp [List.append_assoc]
  have habs : ∀ m : String, m ∉ pre → m ≠ "features" → m ≠ "transcript" → m ≠ "error" →
      m ∉ rkeys (analyze env cfg (pre ++ name :: post) path) := by
    intro m hm h1 h2 h3 hmem
    rw [hmain] at hmem
    rw [rkeys] at hmem
    simp only [List.map_append, List.mem_append] at hmem
    rcases hmem with ((h | h) | h) | h
    · simp at h
      exact h1 h
    · revert h
      cases cfg.getBool "transcribe" true <;> intro h <;> simp at h
      exact h2 h
    · exact hm (okEntries_keys_sub env path audio pre m h)
    · simp at h
      exact h3 h
  exact ⟨hmain, habs name hnpre hn1 hn2 hn3,
    fun m _ hmp hm1 hm2 hm3 => habs m hmp hm1 hm2 hm3⟩

/-- Witness for C10: voice analyzer and emotion detector dispatched before the
failing breathing analyzer; cough classifier after it. -/
theorem c10_witness :
    analyze envBreathFail []
      (["voice_analyzer", "emotion_detector"] ++ "breathing_analyzer" :: ["cough_classifier"])
      "a.wav" =
      [("features", Entry.features [("mfcc", FVal.vec [1]), ("spectral_centroid", FVal.scalar 2),
        ("bandwidth", FVal.scalar 3), ("tempo", FVal.scalar 4)])] ++
        (if Config.getBool [] "transcribe" true then
          [("transcript", Entry.transcript (transcribe_audio envBreathFail [1, 2]))] else []) ++
        okEntries envBreathFail "a.wav" [1, 2] ["voice_analyzer", "emotion_detector"] ++
        [("error", Entry.err "mat1 and mat2 shapes cannot be multiplied")] ∧
    "breathing_analyzer" ∉ rkeys (analyze envBreathFail []
      (["voice_analyzer", "emotion_detector"] ++ "breathing_analyzer" :: ["cough_classifier"])
      "a.wav") ∧
    "cough_classifier" ∉ rkeys (analyze envBreathFail []
      (["voice_analyzer", "emotion_detector"] ++ "breathing_analyzer" :: ["cough_classifier"])
      "a.wav") :=
  ⟨(c10_partial_results_kept_on_dispatch_failure envBreathFail [] "a.wav" [1, 2]
      [("mfcc", FVal.vec [1]), ("spectral_centroid", FVal.scalar 2),
        ("bandwidth", FVal.scalar 3), ("tempo", FVal.scalar 4)]
      ["voice_analyzer", "emotion_detector"] "breathing_analyzer" ["cough_classifier"]
      "mat1 and mat2 shapes cannot be multiplied"
      rfl rfl (by decide) rfl (by decide) (by decide) (by decide) (by decide)).1,
   (c10_partial_results_kept_on_dispatch_failure envBreathFail [] "a.wav" [1, 2]
      [("mfcc", FVal.vec [1]), ("spectral_centroid", FVal.scalar 2),
        ("bandwidth", FVal.scalar 3), ("tempo", FVal.scalar 4)]
      ["voice_analyzer", "emotion_detector"] "breathing_analyzer" ["cough_classifier"]
      "mat1 and mat2 shapes cannot be multiplied"
      rfl rfl (by decide) rfl (by decide) (by decide) (by decide) (by decide)).2.1,
   (c10_partial_results_kept_on_dispatch_failure envBreathFail [] "a.wav" [1, 2]
      [("mfcc", FVal.vec [1]), ("spectral_centroid", FVal.scalar 2),
        ("bandwidth", FVal.scalar 3), ("tempo", FVal.scalar 4)]
      ["voice_analyzer", "emotion_detector"] "breathing_analyzer" ["cough_classifier"]
      "mat1 and mat2 shapes cannot be multiplied"
      rfl rfl (by decide) rfl (by decide) (by decide) (by decide) (by decide)).2.2
     "cough_classifier" (by decide) (by decide) (by decide) (by decide) (by decide)⟩

theorem argmaxAux_spec :
    ∀ (l front : List ℚ) (bi : ℕ),
    bi < front.length →
    (∀ j, j < bi → front.getD j 0 < front.getD bi 0) →
    (∀ j, j < front.length → front.getD j 0 ≤ front.getD bi 0) →
    (argmaxAux bi (front.getD bi 0) front.length l < (front ++ l).length ∧
     (∀ j, j < (front ++ l).length →
       (front ++ l).getD j 0 ≤ (front ++ l).getD (argmaxAux bi (front.getD bi 0) front.length l) 0) ∧
     (∀ j, j < argmaxAux bi (front.getD bi 0) front.length l →
       (front ++ l).getD j 0 < (front ++ l).getD (argmaxAux bi (front.getD bi 0) front.length l) 0)) := by
  intro l
  induction l with
  | nil =>
    intro front bi hbi hstrict hweak
    simp only [argmaxAux, List.append_nil]
    exact ⟨hbi, hweak, fun j hj => hstrict j hj⟩
  | cons x xs ih =>
    intro front bi hbi hstrict hweak
    rw [argmaxAux]
    have hflen : (front ++ [x]).length = front.length + 1 := by simp
    have hx : (front ++ [x]).getD front.length 0 = x := by
      rw [List.getD_append_right front [x] 0 front.length (le_refl _), Nat.sub_self]
      rfl
    have hkeep : ∀ j, j < front.length → (front ++ [x]).getD j 0 = front.getD j 0 :=
      fun j hj => List.getD_append front [x] 0 j hj
    have happ : (front ++ [x]) ++ xs = front ++ x :: xs := by simp
    by_cases hlt : front.getD bi 0 < x
    · rw [if_pos hlt]
      have h1 : front.length < (front ++ [x]).length := by omega
      have h2 : ∀ j, j < front.length →
          (front ++ [x]).getD j 0 < (front ++ [x]).getD front.length 0 := by
        intro j hj
        rw [hkeep j hj, hx]
        exact lt_of_le_of_lt (hweak j hj) hlt
      have h3 : ∀ j, j < (front ++ [x]).length →
          (front ++ [x]).getD j 0 ≤ (front ++ [x]).getD front.length 0 := by
        intro j hj
        rcases Nat.lt_or_ge j front.length with hj2 | hj2
        · rw [hkeep j hj2, hx]
          exact le_of_lt (lt_of_le_of_lt (hweak j hj2) hlt)
        · have hj3 : j = front.length := by omega
          rw [hj3]
      obtain ⟨g1, g2, g3⟩ := ih (front ++ [x]) front.length h1 h2 h3
      rw [hx, hflen, happ] at g1 g2 g3
      exact ⟨g1, g2, g3⟩
    · rw [if_neg hlt]
      have hxle : x ≤ front.getD bi 0 := le_of_not_lt hlt
      have h1 : bi < (front ++ [x]).length := by omega
      have hbv2 : (front ++ [x]).getD bi 0 = front.getD bi 0 := hkeep bi hbi
      have h2 : ∀ j, j < bi → (front ++ [x]).getD j 0 < (front ++ [x]).getD bi 0 := by
        intro j hj
        rw [hkeep j (lt_trans hj hbi), hbv2]
        exact hstrict j hj
      have h3 : ∀ j, j < (front ++ [x]).length →
          (front ++ [x]).getD j 0 ≤ (front ++ [x]).getD bi 0 := by
        intro j hj
        rw [hbv2]
        rcases Nat.lt_or_ge j front.length with hj2 | hj2
        · rw [hkeep j hj2]
          exact hweak j hj2
        · have hj3 : j = front.length := by omega
          rw [hj3, hx]
          exact hxle
      obtain ⟨g1, g2, g3⟩ := ih (front ++ [x]) bi h1 h2 h3
      rw [hbv2, hflen, happ] at g1 g2 g3
      exact ⟨g1, g2, g3⟩

theorem argmaxIdx_spec (p : List ℚ) (hp : p ≠ []) :
    argmaxIdx p < p.length ∧
    (∀ j, j < p.length → p.getD j 0 ≤ p.getD (argmaxIdx p) 0) ∧
    (∀ j, j < argmaxIdx p → p.getD j 0 < p.getD (argmaxIdx p) 0) := by
  cases p with
  | nil => exact absurd rfl hp
  | cons x xs =>
    have h := argmaxAux_spec xs [x] 0 (by simp)
      (fun j hj => absurd hj (Nat.not_lt_zero j))
      (by
        intro j hj
        have hj1 : j < 1 := by simpa using hj
        have hj0 : j = 0 := by omega
        rw [hj0])
    simpa [argmaxIdx] using h

theorem length_softmax (e : ℚ → ℚ) (xs : List ℚ) : (softmax e xs).length = xs.length := by
  simp [softmax]

theorem sum_map_div (xs : List ℚ) (f : ℚ → ℚ) (c : ℚ) :
    (xs.map (fun x => f x / c)).sum = (xs.map f).sum / c := by
  induction xs with
  | nil => simp
  | cons x t ih => simp [ih, add_div]

theorem softmax_sum (e : ℚ → ℚ) (xs : List ℚ) (hne : xs ≠ []) (hpos : ∀ x, 0 < e x) :
    (softmax e xs).sum = 1 := by
  have hS : 0 < (xs.map e).sum := by
    refine List.sum_pos _ ?_ (by simpa using hne)
    intro y hy
    obtain ⟨x, hx, rfl⟩ := List.mem_map.mp hy
    exact hpos x
  rw [softmax, sum_map_div, div_self (ne_of_gt hS)]

theorem mget_zip_getD :
    ∀ (classes : List String) (probs : List ℚ) (i : ℕ),
    classes.Nodup → i < classes.length → i < probs.length →
    mget (classes.zip probs) (classes.getD i "") = some (probs.getD i 0) := by
  intro classes
  induction classes with
  | nil =>
    intro probs i _ h _
    exact absurd h (by simp)
  | cons c cs ih =>
    intro probs i hnd hic hip
    cases probs with
    | nil => exact absurd hip (by simp)
    | cons p ps =>
      rw [List.nodup_cons] at hnd
      obtain ⟨hc, hnds⟩ := hnd
      cases i with
      | zero =>
        show mget ((c, p) :: cs.zip ps) c = some p
        simp [mget]
      | succ n =>
        have hlen : n < cs.length := by simpa using hic
        have hmem : cs.getD n "" ∈ cs := by
          rw [List.getD_eq_getElem cs "" hlen]
          exact List.getElem_mem hlen
        have hne2 : cs.getD n "" ≠ c := fun h => hc (h ▸ hmem)
        show mget ((c, p) :: cs.zip ps) (cs.getD n "") = some (ps.getD n 0)
        simp only [mget, if_neg hne2]
        exact ih ps n hnds hlen (by simpa using hip)

theorem classifierEntry_ok (e : ℚ → ℚ) (classes : List String) (output : List ℚ)
    (hpos : ∀ x, 0 < e x) (hlen : output.length = classes.length) (hne : output ≠ [])
    (hnd : classes.Nodup) :
    classifierEntry e classes output =
      .ok (.classifier
        { prediction := classes.getD (argmaxIdx (softmax e output)) ""
          confidence := (softmax e output).getD (argmaxIdx (softmax e output)) 0
          probabilities := classes.zip (softmax e output) }) ∧
    rkeys (classes.zip (softmax e output)) = classes ∧
    ((classes.zip (softmax e output)).map Prod.snd).sum = 1 ∧
    argmaxIdx (softmax e output) < classes.length ∧
    mget (classes.zip (softmax e output)) (classes.getD (argmaxIdx (softmax e output)) "")
      = some ((softmax e output).getD (argmaxIdx (softmax e output)) 0) ∧
    (∀ j, j < (softmax e output).length →
      (softmax e output).getD j 0 ≤ (softmax e output).getD (argmaxIdx (softmax e output)) 0) ∧
    (∀ j, j < argmaxIdx (softmax e output) →
      (softmax e output).getD j 0 < (softmax e output).getD (argmaxIdx (softmax e output)) 0) := by
  have hplen : (softmax e output).length = output.length := length_softmax e output
  have hpne : softmax e output ≠ [] := by
    intro h
    exact hne (by simpa [softmax] using h)
  obtain ⟨ham, hmax, hfirst⟩ := argmaxIdx_spec (softmax e output) hpne
  have hamlt : argmaxIdx (softmax e output) < classes.length := by
    rw [hplen, hlen] at ham
    exact ham
  have hle1 : classes.length ≤ (softmax e output).length := by
    rw [hplen, hlen]
  have hle2 : (softmax e output).length ≤ classes.length := by
    rw [hplen, hlen]
  refine ⟨?_, ?_, ?_, hamlt, ?_, hmax, hfirst⟩
  · have hie : output.isEmpty = false := by
      cases output with
      | nil => exact absurd rfl hne
      | cons a t => rfl
    unfold classifierEntry
    simp only [hie, Bool.false_eq_true, if_false]
    rw [if_pos hamlt]
  · rw [rkeys]
    exact List.map_fst_zip classes (softmax e output) hle1
  · rw [List.map_snd_zip classes (softmax e output) hle2]
    exact softmax_sum e output hne hpos
  · exact mget_zip_getD classes (softmax e output) (argmaxIdx (softmax e output)) hnd hamlt ham

/-- Claim C8 (confirmed): for a classifier record produced by the dispatch loop
(cough classifier with its 4 fixed labels, breathing analyzer with its 5), the
stored record is exactly the softmax distribution zipped with the fixed label
list: its keys are exactly the label set, its values sum to 1 (hence within
1e-5 of 1 — the embedding computes exactly), the prediction is the label at the
argmax index (whose mapped probability equals the confidence, which is the
maximal probability), and the argmax index is the first index attaining the
maximum (strictly greater than every earlier probability, at least every later
one).  The positivity of the exponential is what makes softmax a probability
distribution. -/
theorem c8_classifier_record_normalization (env : AnalyzeEnv) (path : String)
    (audio : List ℚ) (name : String) (classes : List String) (output : List ℚ)
    (hpos : ∀ x, 0 < env.exp x)
    (hcase : (name = "cough_classifier" ∧ classes = coughClasses ∧ output.length = 4) ∨
             (name = "breathing_analyzer" ∧ classes = breathingClasses ∧ output.length = 5))
    (hfwd : env.forward name (modelInput audio) = .ok output) :
    dispatchStep env path audio name =
      .ok (some (.classifier
        { prediction := classes.getD (argmaxIdx (softmax env.exp output)) ""
          confidence := (softmax env.exp output).getD (argmaxIdx (softmax env.exp output)) 0
          probabilities := classes.zip (softmax env.exp output) })) ∧
    rkeys (classes.zip (softmax env.exp output)) = classes ∧
    |((classes.zip (softmax env.exp output)).map Prod.snd).sum - 1| ≤ 1 / 100000 ∧
    argmaxIdx (softmax env.exp output) < classes.length ∧
    mget (classes.zip (softmax env.exp output))
        (classes.getD (argmaxIdx (softmax env.exp output)) "")
      = some ((softmax env.exp output).getD (argmaxIdx (softmax env.exp output)) 0) ∧
    (∀ j, j < (softmax env.exp output).length →
      (softmax env.exp output).getD j 0
        ≤ (softmax env.exp output).getD (argmaxIdx (softmax env.exp output)) 0) ∧
    (∀ j, j < argmaxIdx (softmax env.exp output) →
      (softmax env.exp output).getD j 0
        < (softmax env.exp output).getD (argmaxIdx (softmax env.exp output)) 0) := by
  obtain ⟨hname, hcls, hlen⟩ | ⟨hname, hcls, hlen⟩ := hcase <;> subst hname <;> subst hcls
  · have hne : output ≠ [] := by
      intro h
      rw [h] at hlen
      simp at hlen
    have hlc : output.length = coughClasses.length := by rw [hlen]; rfl
    have hnd : coughClasses.Nodup := by decide
    obtain ⟨hentry, hkeys, hsum, hlt, hmget, hmax, hfirst⟩ :=
      classifierEntry_ok env.exp coughClasses output hpos hlc hne hnd
    refine ⟨?_, hkeys, ?_, hlt, hmget, hmax, hfirst⟩
    · rw [dispatchStep, if_neg (by decide : ¬("cough_classifier" = "emotion_detector"))]
      simp only [hfwd, if_true, if_false]
      rw [hentry]
      rfl
    · rw [hsum]
      norm_num
  · have hne : output ≠ [] := by
      intro h
      rw [h] at hlen
      simp at hlen
    have hlc : output.length = breathingClasses.length := by rw [hlen]; rfl
    have hnd : breathingClasses.Nodup := by decide
    obtain ⟨hentry, hkeys, hsum, hlt, hmget, hmax, hfirst⟩ :=
      classifierEntry_ok env.exp breathingClasses output hpos hlc hne hnd
    refine ⟨?_, hkeys, ?_, hlt, hmget, hmax, hfirst⟩
    · rw [dispatchStep, if_neg (by decide : ¬("breathing_analyzer" = "emotion_detector"))]
      simp only [hfwd, if_true, if_false]
      rw [hentry]
      rfl
    · rw [hsum]
      norm_num

/-- Witness for C8: the cough classifier dispatched on a concrete forward
output of length 4, with the exponential oracle constantly 1. -/
theorem c8_witness :
    dispatchStep envBreathFail "a.wav" [1, 2] "cough_classifier" =
      .ok (some (.classifier
        { prediction := coughClasses.getD
            (argmaxIdx (softmax envBreathFail.exp [1, 0, 0, 0])) ""
          confidence := (softmax envBreathFail.exp [1, 0, 0, 0]).getD
            (argmaxIdx (softmax envBreathFail.exp [1, 0, 0, 0])) 0
          probabilities := coughClasses.zip (softmax envBreathFail.exp [1, 0, 0, 0]) })) ∧
    rkeys (coughClasses.zip (softmax envBreathFail.exp [1, 0, 0, 0])) = coughClasses ∧
    |((coughClasses.zip (softmax envBreathFail.exp [1, 0, 0, 0])).map Prod.snd).sum - 1|
      ≤ 1 / 100000 ∧
    argmaxIdx (softmax envBreathFail.exp [1, 0, 0, 0]) < coughClasses.length ∧
    mget (coughClasses.zip (softmax envBreathFail.exp [1, 0, 0, 0]))
        (coughClasses.getD (argmaxIdx (softmax envBreathFail.exp [1, 0, 0, 0])) "")
      = some ((softmax envBreathFail.exp [1, 0, 0, 0]).getD
          (argmaxIdx (softmax envBreathFail.exp [1, 0, 0, 0])) 0) ∧
    (∀ j, j < (softmax envBreathFail.exp [1, 0, 0, 0]).length →
      (softmax envBreathFail.exp [1, 0, 0, 0]).getD j 0
        ≤ (softmax envBreathFail.exp [1, 0, 0, 0]).getD
            (argmaxIdx (softmax envBreathFail.exp [1, 0, 0, 0])) 0) ∧
    (∀ j, j < argmaxIdx (softmax envBreathFail.exp [1, 0, 0, 0]) →
      (softmax envBreathFail.exp [1, 0, 0, 0]).getD j 0
        < (softmax envBreathFail.exp [1, 0, 0, 0]).getD
            (argmaxIdx (softmax envBreathFail.exp [1, 0, 0, 0])) 0) :=
  c8_classifier_record_normalization envBreathFail "a.wav" [1, 2] "cough_classifier"
    coughClasses [1, 0, 0, 0] (fun x => one_pos) (Or.inl ⟨rfl, rfl, rfl⟩) rfl
